import Mathlib

/-!
Verification development for the inter-month constraint reconciliation and
shift-label normalization core of the `turni-autogen-experimental` repository
(`streamlit_app.py` and `streamlit_app_ui.py`).

The Python functions are shallowly embedded as executable Lean definitions:
strings are manipulated through their character lists (Python `str` methods
restricted to the ASCII range, which covers the whole vocabulary of the
program), Python dictionaries become association lists, Python values become
the inductive `PyVal`, and code that can raise returns `Except String`.
-/

namespace Turni

/-! ## Python string primitives (ASCII fragment), embedded on `List Char` -/

/-- The whitespace characters stripped by Python `str.strip` / split by
`str.split` (ASCII fragment). -/
def isPySpace (c : Char) : Bool :=
  c = ' ' || c = '\t' || c = '\n' || c = '\r' || c = '\x0b' || c = '\x0c'

/-- `str.strip` on a character list. -/
def trimChars (l : List Char) : List Char :=
  ((l.dropWhile isPySpace).reverse.dropWhile isPySpace).reverse

/-- Python `str.strip()`. -/
def pyStrip (s : String) : String := String.mk (trimChars s.data)

/-- Python `str.casefold()`; on the ASCII range it is plain lowercasing. -/
def pyCasefold (s : String) : String := String.mk (s.data.map Char.toLower)

/-- Python `str.upper()` (ASCII fragment). -/
def asciiUpper (s : String) : String := String.mk (s.data.map Char.toUpper)

/-- Accumulator pass of Python `str.split()` (split on whitespace runs,
dropping empty pieces). -/
def wordsAux : List Char → List Char → List (List Char)
  | [], acc => if acc.isEmpty then [] else [acc.reverse]
  | c :: rest, acc =>
    if isPySpace c then
      if acc.isEmpty then wordsAux rest [] else acc.reverse :: wordsAux rest []
    else wordsAux rest (c :: acc)

/-- Python `str.split()` on a character list. -/
def wordsChars (l : List Char) : List (List Char) := wordsAux l []

/-- `" ".join(ws)` on character lists. -/
def joinWords : List (List Char) → List Char
  | [] => []
  | [w] => w
  | w :: ws => w ++ ' ' :: joinWords ws

/-- `" ".join(s.split())`: collapse internal whitespace runs to single
spaces. -/
def pyCollapse (s : String) : String := String.mk (joinWords (wordsChars s.data))

/-- Does `needle` occur as a prefix of `hay`? -/
def isPrefixChars : List Char → List Char → Bool
  | [], _ => true
  | _ :: _, [] => false
  | a :: as, b :: bs => a == b && isPrefixChars as bs

/-- Does `needle` occur as a contiguous substring of `hay`?
(Python `needle in hay`.) -/
def containsChars (needle : List Char) : List Char → Bool
  | [] => needle.isEmpty
  | c :: rest => isPrefixChars needle (c :: rest) || containsChars needle rest

/-- Python substring test `frag in s`. -/
def containsSub (s frag : String) : Bool := containsChars frag.data s.data

/-- Python `s.split(',')` (keeps empty pieces). -/
def splitCommaChars : List Char → List (List Char)
  | [] => [[]]
  | c :: rest =>
    if c = ',' then [] :: splitCommaChars rest
    else
      match splitCommaChars rest with
      | r :: rs => (c :: r) :: rs
      | [] => [[c]]

/-- Python `s.split(',')`. -/
def splitCommas (s : String) : List String :=
  (splitCommaChars s.data).map String.mk

/-! ## Label Normalizer (`normalize_fascia`, `streamlit_app_ui.py` 26-68) -/

/-- The fixed vocabulary offered by the UI (`FASCIA_OPTIONS`). -/
def FASCIA_OPTIONS : List String :=
  ["Mattina", "Pomeriggio", "Notte", "Diurno", "Tutto il giorno"]

/-- The result triple of `normalize_fascia`:
`(canonical_value, changed, unknown)`. -/
structure NormResult where
  canonicalValue : String
  changed : Bool
  unknown : Bool
deriving DecidableEq, Repr

/-- The key preprocessing of `normalize_fascia`:
`key = s.casefold().strip()` followed by `key = " ".join(key.split())`. -/
def fasciaKey (s : String) : String := pyCollapse (pyStrip (pyCasefold s))

/-- The `direct` exact-match table of `normalize_fascia` (a Python dict with
pairwise distinct keys, embedded as an if-chain lookup). -/
def directLookup (k : String) : Option String :=
  if k = "mattina" then Option.some "Mattina"
  else if k = "pomeriggio" then Option.some "Pomeriggio"
  else if k = "notte" then Option.some "Notte"
  else if k = "diurno" then Option.some "Diurno"
  else if k = "tutto il giorno" then Option.some "Tutto il giorno"
  else if k = "tutto giorno" then Option.some "Tutto il giorno"
  else if k = "all day" then Option.some "Tutto il giorno"
  else if k = "giornata intera" then Option.some "Tutto il giorno"
  else Option.none

/-- Fuzzy rule 1: `"tutto" in key or "all" in key or "intera" in key`. -/
def fullDayFrag (k : String) : Bool :=
  containsSub k "tutto" || containsSub k "all" || containsSub k "intera"

/-- Fuzzy rule 2: `"diurn" in key or "daytime" in key or key == "d"`. -/
def daytimeFrag (k : String) : Bool :=
  containsSub k "diurn" || containsSub k "daytime" || k = "d"

/-- Fuzzy rule 3: `"matt" in key or "morning" in key or key in {"am", "a.m."}`. -/
def morningFrag (k : String) : Bool :=
  containsSub k "matt" || containsSub k "morning" || k = "am" || k = "a.m."

/-- Fuzzy rule 4:
`"pome" in key or "pom" in key or "afternoon" in key or key in {"pm", "p.m."}`. -/
def afternoonFrag (k : String) : Bool :=
  containsSub k "pome" || containsSub k "pom" || containsSub k "afternoon" ||
    k = "pm" || k = "p.m."

/-- Fuzzy rule 5: `"nott" in key or "night" in key or key == "n"`. -/
def nightFrag (k : String) : Bool :=
  containsSub k "nott" || containsSub k "night" || k = "n"

/-- `normalize_fascia(val)` (`streamlit_app_ui.py` 26-68).  A `Option.none`
argument models Python `None`; the function is otherwise called on strings. -/
def normalize_fascia : Option String → NormResult
  | Option.none => ⟨"", false, false⟩
  | Option.some v =>
    let s := pyStrip v
    if s = "" then ⟨"", false, false⟩
    else
      let key := fasciaKey s
      match directLookup key with
      | Option.some canon => ⟨canon, decide (canon ≠ s), false⟩
      | Option.none =>
        if fullDayFrag key then ⟨"Tutto il giorno", true, false⟩
        else if daytimeFrag key then ⟨"Diurno", true, false⟩
        else if morningFrag key then ⟨"Mattina", true, false⟩
        else if afternoonFrag key then ⟨"Pomeriggio", true, false⟩
        else if nightFrag key then ⟨"Notte", true, false⟩
        else ⟨"Tutto il giorno", true, true⟩

/-- No rule of `normalize_fascia`, exact or fuzzy, fires on key `k`. -/
def fasciaNoMatch (k : String) : Bool :=
  (directLookup k).isNone && !(fullDayFrag k) && !(daytimeFrag k) &&
    !(morningFrag k) && !(afternoonFrag k) && !(nightFrag k)

/-! ## Python values and the Audit Event Summarizer
(`_summarize_stats`, `streamlit_app.py` 78-109) -/

/-- A Python value, as far as this code manipulates them.  Dictionary keys in
this program are always strings (period keys such as `"2026-02"`). -/
inductive PyVal where
  | none : PyVal
  | bool : Bool → PyVal
  | int : Int → PyVal
  | str : String → PyVal
  | list : List PyVal → PyVal
  | tuple : List PyVal → PyVal
  | dict : List (String × PyVal) → PyVal

/-- Python truthiness of a value. -/
def truthy : PyVal → Bool
  | PyVal.none => false
  | PyVal.bool b => b
  | PyVal.int n => !(n == 0)
  | PyVal.str s => !(s == "")
  | PyVal.list xs => !xs.isEmpty
  | PyVal.tuple xs => !xs.isEmpty
  | PyVal.dict kvs => !kvs.isEmpty

/-- Is the value a Python mapping (`isinstance(v, dict)`)? -/
def isDict : PyVal → Bool
  | PyVal.dict _ => true
  | _ => false

/-- `d.get(k, default)` on an embedded dictionary body. -/
def pyGetD (kvs : List (String × PyVal)) (k : String) (dflt : PyVal) : PyVal :=
  match kvs.lookup k with
  | Option.some v => v
  | Option.none => dflt

mutual
/-- Python `repr` (quoting strings with `'`, rendering containers). -/
def pyRepr : PyVal → String
  | PyVal.none => "None"
  | PyVal.bool b => if b then "True" else "False"
  | PyVal.int n => toString n
  | PyVal.str s => "\x27" ++ s ++ "\x27"
  | PyVal.list xs => "[" ++ String.intercalate ", " (pyReprL xs) ++ "]"
  | PyVal.tuple xs => "(" ++ String.intercalate ", " (pyReprL xs) ++ ")"
  | PyVal.dict kvs => "\x7b" ++ String.intercalate ", " (pyReprKV kvs) ++ "\x7d"

/-- `repr` of each element of a list. -/
def pyReprL : List PyVal → List String
  | [] => []
  | x :: xs => pyRepr x :: pyReprL xs

/-- `repr` of each `key: value` pair of a dictionary body. -/
def pyReprKV : List (String × PyVal) → List String
  | [] => []
  | (k, v) :: rest => ("\x27" ++ k ++ "\x27: " ++ pyRepr v) :: pyReprKV rest
end

/-- Python `str(v)`: identity on strings, `repr`-based elsewhere. -/
def pyStr : PyVal → String
  | PyVal.str s => s
  | v => pyRepr v

/-- Python string slicing `s[:400]`. -/
def take400 (s : String) : String := String.mk (s.data.take 400)

/-- The summary of one structured month record, as stored by
`_summarize_stats` into `month_summary[k]` (lines 98-102 of
`streamlit_app.py`): raw `status`, `solver_error` truncated to 400
characters when truthy (else `None`), and `autorelax`. -/
def month_entry (vkvs : List (String × PyVal)) : PyVal :=
  PyVal.dict
    [("status", pyGetD vkvs "status" PyVal.none),
     ("solver_error",
       if truthy (pyGetD vkvs "solver_error" PyVal.none) then
         PyVal.str (take400 (pyStr (pyGetD vkvs "solver_error" PyVal.none)))
       else PyVal.none),
     ("autorelax", pyGetD vkvs "autorelax" PyVal.none)]

/-- `str(v.get("status", "")).upper()` for one month record. -/
def month_status_upper (vkvs : List (String × PyVal)) : String :=
  asciiUpper (pyStr (pyGetD vkvs "status" (PyVal.str "")))

/-- The three accumulators built by the `for k, v in months.items()` loop of
`_summarize_stats`. -/
structure MonthsSummary where
  month_summary : List (String × PyVal)
  greedy_months : List String
  infeasible_months : List String

/-- One iteration of the `for k, v in months.items()` loop of
`_summarize_stats` (lines 88-102): the stored entry, whether the period is
appended to `greedy_months` (`if se:` — truthiness of `solver_error`), and
whether it is appended to `infeasible_months` (`"INFEAS" in st_m`).  A
non-mapping value is stored as its string form and appended to neither
list. -/
def month_step (v : PyVal) : PyVal × Bool × Bool :=
  match v with
  | PyVal.dict vkvs =>
    (month_entry vkvs,
     truthy (pyGetD vkvs "solver_error" PyVal.none),
     containsSub (month_status_upper vkvs) "INFEAS")
  | _ => (PyVal.dict [("status", PyVal.str (pyStr v))], false, false)

/-- The loop of `_summarize_stats` (lines 88-102), processed in source
order over the items of `stats["months"]`. -/
def summarize_months : List (String × PyVal) → MonthsSummary
  | [] => ⟨[], [], []⟩
  | (k, v) :: rest =>
    let acc := summarize_months rest
    let st := month_step v
    ⟨(k, st.1) :: acc.month_summary,
     (if st.2.1 then k :: acc.greedy_months else acc.greedy_months),
     (if st.2.2 then k :: acc.infeasible_months else acc.infeasible_months)⟩

/-- `_summarize_stats(stats)` (`streamlit_app.py` 78-109).  `Except.error`
models an uncaught Python exception: `months.items()` raises
`AttributeError` when `stats.get("months")` is truthy but not a mapping;
every other path returns normally. -/
def summarize_stats (stats : PyVal) : Except String PyVal :=
  match stats with
  | PyVal.dict kvs =>
    let months0 := pyGetD kvs "months" PyVal.none
    let months := if truthy months0 then months0 else PyVal.dict []
    match months with
    | PyVal.dict mkvs =>
      let acc := summarize_months mkvs
      Except.ok (PyVal.dict
        [("status", pyGetD kvs "status" PyVal.none),
         ("greedy_months", PyVal.list (acc.greedy_months.map PyVal.str)),
         ("infeasible_months", PyVal.list (acc.infeasible_months.map PyVal.str)),
         ("months", PyVal.dict acc.month_summary)])
    | _ => Except.error "AttributeError"
  | _ => Except.ok (PyVal.dict [("status", PyVal.str "UNKNOWN")])

/-- `stats` is a mapping whose `"months"` entry is truthy but not itself a
mapping — exactly the inputs on which `_summarize_stats` raises. -/
def months_ill_formed : PyVal → Bool
  | PyVal.dict kvs =>
    truthy (pyGetD kvs "months" PyVal.none) &&
      !(isDict (pyGetD kvs "months" PyVal.none))
  | _ => false

/-- Is the embedded run free of an uncaught exception? -/
def isOkE : Except String PyVal → Bool
  | Except.ok _ => true
  | Except.error _ => false

/-! ## Calendar dates and `datetime.fromisoformat` -/

/-- A calendar date, as produced by `datetime(...).date()`. -/
structure Date where
  year : Int
  month : Nat
  day : Nat
deriving DecidableEq, Repr

/-- The Gregorian leap-year rule used by `datetime.date`. -/
def isLeap (y : Int) : Bool :=
  (y % 4 == 0 && !(y % 100 == 0)) || y % 400 == 0

/-- Number of days of month `m` of year `y` (months outside `[1,12]` never
reach this function on a validated date). -/
def daysInMonth (y : Int) (m : Nat) : Nat :=
  if m = 2 then (if isLeap y then 29 else 28)
  else if m = 4 ∨ m = 6 ∨ m = 9 ∨ m = 11 then 30
  else 31

/-- Numeric value of a decimal digit character. -/
def dval (c : Char) : Nat := c.toNat - 48

/-- `datetime.fromisoformat(s).date()` on calendar-date strings
`YYYY-MM-DD` (the format the carryover extractor stores); any other string
raises `ValueError`, modelled as `Option.none`. -/
def fromisoformat (s : String) : Option Date :=
  match s.data with
  | [y1, y2, y3, y4, h1, m1, m2, h2, d1, d2] =>
    if y1.isDigit && y2.isDigit && y3.isDigit && y4.isDigit && h1 == '-' &&
        m1.isDigit && m2.isDigit && h2 == '-' && d1.isDigit && d2.isDigit then
      let y : Int := Int.ofNat (dval y1 * 1000 + dval y2 * 100 + dval y3 * 10 + dval y4)
      let mo := dval m1 * 10 + dval m2
      let da := dval d1 * 10 + dval d2
      if 1 ≤ y ∧ 1 ≤ mo ∧ mo ≤ 12 ∧ 1 ≤ da ∧ da ≤ daysInMonth y mo then
        Option.some ⟨y, mo, da⟩
      else Option.none
    else Option.none
  | _ => Option.none

/-- `date(y, m, 1) - timedelta(days=1)`: the day before the first day of
period `(y, m)`. -/
def expectedLastDate (y : Int) (m : Nat) : Date :=
  if m = 1 then ⟨y - 1, 12, 31⟩ else ⟨y, m - 1, daysInMonth y (m - 1)⟩

/-! ## Carryover records and the contiguity guard
(`streamlit_app.py` 399-444) -/

/-- The carryover record handled by the run handler of `streamlit_app.py`
(the dict produced by `extract_carryover_from_output_xlsx`, or built from
manual input).  A missing or `None` field is `Option.none` / `[]`. -/
structure Carry where
  last_date : Option String
  block_all_on_first_day : List String
  recent_nights : List String
  note : Option String
deriving DecidableEq, Repr

/-- The empty record modelling `(carry or {})` / `{}`. -/
def emptyCarry : Carry := ⟨Option.none, [], [], Option.none⟩

/-- Result of the contiguity-guard block: the (possibly cleared) record and
whether `st.warning` was emitted. -/
structure GuardResult where
  carry : Carry
  warned : Bool
deriving DecidableEq, Repr

/-- The contiguity guard (`streamlit_app.py` 404-419): inside
`try: ... except Exception: pass`, compute
`target_first = datetime(year, month, 1).date()`, parse
`carry["last_date"]` when truthy, and when the parsed date differs from
`target_first - timedelta(days=1)` clear `block_all_on_first_day` (the
code clears only a truthy list; an already-empty list stays as it is) and
warn.  Any exception — an invalid period for `datetime`, or an unparsable
date string — is swallowed and the record is left intact. -/
def contiguity_guard (y : Int) (m : Nat) (carry : Carry) : GuardResult :=
  if 1 ≤ y ∧ y ≤ 9999 ∧ 1 ≤ m ∧ m ≤ 12 then
    match carry.last_date with
    | Option.none => ⟨carry, false⟩
    | Option.some s =>
      if s = "" then ⟨carry, false⟩
      else
        match fromisoformat s with
        | Option.none => ⟨carry, false⟩
        | Option.some d =>
          if d = expectedLastDate y m then ⟨carry, false⟩
          else
            let carry2 :=
              if carry.block_all_on_first_day.isEmpty then carry
              else { carry with block_all_on_first_day := [] }
            ⟨carry2, true⟩
  else ⟨carry, false⟩

/-! ## Manual name collection and merge (`streamlit_app.py` 424-444) -/

/-- The de-duplication loop
`seen = set(); [n for n in manual_names if not (n in seen or seen.add(n))]`:
keep the first occurrence of each name, preserving order. -/
def dedupSeen (l : List String) : List String :=
  l.foldl (fun acc n => if n ∈ acc then acc else acc ++ [n]) []

/-- First-occurrence de-duplication, written as the spec words it
(`deduplicate preserving first-seen order`); proved equal to the
source-side `dedupSeen`. -/
def dedupFirstSeen : List String → List String
  | [] => []
  | x :: xs => x :: dedupFirstSeen (xs.filter (fun y => decide (y ≠ x)))
termination_by l => l.length
decreasing_by
  simp only [List.length_cons]
  exact Nat.lt_succ_of_le (List.length_filter_le _ _)

/-- `manual_names` as built by `streamlit_app.py` 424-431: strip the
multiselect entries and the comma-split free-text entries, drop the ones
that strip to empty, concatenate, de-duplicate keeping first occurrences. -/
def collect_manual_names (sel : List String) (text : String) : List String :=
  dedupSeen ((sel.filter (fun x => decide (pyStrip x ≠ ""))).map pyStrip ++
    ((splitCommas text).filter (fun x => decide (pyStrip x ≠ ""))).map pyStrip)

/-- Modelled from the spec: `Concatenate explicit multi-select names with
free-text comma-separated names, trim each, drop empties, then deduplicate
preserving first-seen order.` -/
def collect_manual_names_spec (sel : List String) (text : String) : List String :=
  dedupFirstSeen (((sel ++ splitCommas text).map pyStrip).filter
    (fun x => decide (x ≠ "")))

/-- The merge loop of `streamlit_app.py` 438-441:
`for n in manual_names: if n not in cur: cur.append(n)`. -/
def merge_manual (cur manual : List String) : List String :=
  manual.foldl (fun c n => if n ∈ c then c else c ++ [n]) cur

/-! ## The two run handlers around the extraction adapter -/

/-- Outcome of one run of the `streamlit_app.py` handler (`run_btn` branch),
restricted to the carryover/audit behaviour the spec describes. -/
structure AppOutcome where
  carryover_by_month : Option (List ((Int × Nat) × Carry))
  contiguity_warned : Bool
  generation_attempted : Bool
  audit_result : Option String
  success : Bool
deriving DecidableEq, Repr

/-- The fresh record of the manual-only branch (`streamlit_app.py` 434). -/
def manualCarry (names : List String) : Carry :=
  { last_date := Option.none, block_all_on_first_day := names,
    recent_nights := [], note := Option.some "Carryover manuale (solo blocco giorno 1)" }

/-- Replace (or insert) the binding of `key` in an association list, as a
Python dict assignment does. -/
def assocSet : List ((Int × Nat) × Carry) → (Int × Nat) → Carry →
    List ((Int × Nat) × Carry)
  | [], key, c => [(key, c)]
  | (k0, c0) :: rest, key, c =>
    if k0 = key then (key, c) :: rest else (k0, c0) :: assocSet rest key c

/-- Lines 432-443 of `streamlit_app.py`: apply the collected manual names to
`carryover_by_month` (`Option.none` models Python `None`). -/
def apply_manual (y : Int) (m : Nat) (cbm : Option (List ((Int × Nat) × Carry)))
    (manual : List String) : Option (List ((Int × Nat) × Carry)) :=
  if manual = [] then cbm
  else
    match cbm with
    | Option.none => Option.some [((y, m), manualCarry manual)]
    | Option.some entries =>
      let key := (y, m)
      let carry :=
        match entries.lookup key with
        | Option.some c => c
        | Option.none => emptyCarry
      let cur := merge_manual carry.block_all_on_first_day manual
      Option.some (assocSet entries key { carry with block_all_on_first_day := cur })

/-- The carryover/generation/audit part of the `streamlit_app.py` run
handler (lines 399-501).  `prev` is `Option.none` when no previous-month
file was uploaded, otherwise the result of the extraction adapter; `gen`
is the result of `generate_schedule`.  The adapter call (line 403) is NOT
wrapped in any `try`, so an adapter failure propagates as an uncaught
exception (`Except.error`): the guard, the manual merge, the scheduling
call and both audit paths are never reached.  A scheduling failure is
caught and produces an `"error"` audit event. -/
def run_app (y : Int) (m : Nat) (prev : Option (Except String Carry))
    (sel : List String) (text : String) (gen : Except String PyVal) :
    Except String AppOutcome :=
  match prev with
  | Option.some (Except.error e) => Except.error e
  | Option.some (Except.ok carry0) =>
    let g := contiguity_guard y m carry0
    let cbm := apply_manual y m (Option.some [((y, m), g.carry)])
      (collect_manual_names sel text)
    match gen with
    | Except.ok _ => Except.ok ⟨cbm, g.warned, true, Option.some "ok", true⟩
    | Except.error _ => Except.ok ⟨cbm, g.warned, true, Option.some "error", false⟩
  | Option.none =>
    let cbm := apply_manual y m Option.none (collect_manual_names sel text)
    match gen with
    | Except.ok _ => Except.ok ⟨cbm, false, true, Option.some "ok", true⟩
    | Except.error _ => Except.ok ⟨cbm, false, true, Option.some "error", false⟩

/-- The carryover record of the `streamlit_app_ui.py` handler (its extractor
variant uses the key `blocked_day1_doctors`). -/
structure CarryU where
  blocked_day1_doctors : List String
  source_last_date : Option String
  night_last_day_doctor : Option String
deriving DecidableEq, Repr

/-- `{}` then `setdefault("blocked_day1_doctors", [])`. -/
def emptyCarryU : CarryU := ⟨[], Option.none, Option.none⟩

/-- Dict assignment on the string-keyed map of `streamlit_app_ui.py`. -/
def assocSetU : List (String × CarryU) → String → CarryU → List (String × CarryU)
  | [], key, c => [(key, c)]
  | (k0, c0) :: rest, key, c =>
    if k0 = key then (key, c) :: rest else (k0, c0) :: assocSetU rest key c

/-- Outcome of the carryover phase of the `streamlit_app_ui.py` admin
handler (lines 503-536): the map handed to generation, whether an
extraction error was shown, and whether the run goes on to generation. -/
structure UiOutcome where
  carryover_by_month : List (String × CarryU)
  extract_error_shown : Option String
  generation_attempted : Bool
deriving DecidableEq, Repr

/-- Lines 503-536 of `streamlit_app_ui.py`: the extraction call is wrapped
in `try/except` — a failure only shows `st.error` and the run CONTINUES;
the manual multiselect is then merged via `setdefault` plus an
append-if-absent loop, and generation remains reachable. -/
def run_ui (mk : String) (prev : Option (Except String CarryU))
    (manual_block : List String) : UiOutcome :=
  let step :=
    match prev with
    | Option.none => (([] : List (String × CarryU)), (Option.none : Option String))
    | Option.some (Except.ok ci) => ([(mk, ci)], Option.none)
    | Option.some (Except.error e) => ([], Option.some e)
  let cbm1 :=
    if manual_block = [] then step.1
    else
      let cur :=
        match step.1.lookup mk with
        | Option.some c => c
        | Option.none => emptyCarryU
      let blocked := merge_manual cur.blocked_day1_doctors manual_block
      assocSetU step.1 mk { cur with blocked_day1_doctors := blocked }
  ⟨cbm1, step.2, true⟩

/-! ## The per-row normalization step of the save handler
(`streamlit_app_ui.py` 371-386) -/

/-- The Python value of the triple returned by `normalize_fascia`. -/
def normResToPy (r : NormResult) : PyVal :=
  PyVal.tuple [PyVal.str r.canonicalValue, PyVal.bool r.changed, PyVal.bool r.unknown]

/-- An attribute call `.strip()` on a Python value: only strings carry that
method; on any other value Python raises `AttributeError`. -/
def pyCallStrip : PyVal → Except String PyVal
  | PyVal.str s => Except.ok (PyVal.str (pyStrip s))
  | _ => Except.error "AttributeError"

/-- Line 381 of `streamlit_app_ui.py` (save handler, executed for every
edited row with a valid date and non-empty shift):
`sh, _changed, _unknown = normalize_fascia(sh_raw).strip()` — the
`.strip()` is evaluated on the 3-tuple returned by `normalize_fascia`,
before any unpacking happens. -/
def save_row_shift (sh_raw : Option String) : Except String PyVal :=
  pyCallStrip (normResToPy (normalize_fascia sh_raw))

/-! ## Theorems -/

/-- Helper: the empty string never parses as a date. -/
theorem fromisoformat_empty : fromisoformat "" = Option.none := by decide

/-- C1 — Contiguity guard: for every period `(y, m)` and every extracted
carryover record whose `last_date` is present and parses to a date different
from the day before the first day of `(y, m)`, the guard empties
`block_all_on_first_day`, emits a warning, and the run handler continues to
the generation/audit phase (the mismatch is not fatal). -/
theorem contiguity_guard_mismatch_clears_and_warns
    (y : Int) (m : Nat) (carry : Carry) (s : String) (d : Date)
    (gen : Except String PyVal)
    (hy : 1 ≤ y ∧ y ≤ 9999) (hm : 1 ≤ m ∧ m ≤ 12)
    (hs : carry.last_date = Option.some s)
    (hp : fromisoformat s = Option.some d)
    (hne : d ≠ expectedLastDate y m) :
    (contiguity_guard y m carry).carry.block_all_on_first_day = []
    ∧ (contiguity_guard y m carry).warned = true
    ∧ ∃ out, run_app y m (Option.some (Except.ok carry)) [] "" gen = Except.ok out
        ∧ out.generation_attempted = true ∧ out.contiguity_warned = true := by
  have hse : s ≠ "" := by
    intro h
    rw [h] at hp
    exact Option.noConfusion (fromisoformat_empty.symm.trans hp)
  have hcond : 1 ≤ y ∧ y ≤ 9999 ∧ 1 ≤ m ∧ m ≤ 12 := ⟨hy.1, hy.2, hm.1, hm.2⟩
  have hguard : contiguity_guard y m carry =
      ⟨(if carry.block_all_on_first_day.isEmpty then carry
        else { carry with block_all_on_first_day := [] }), true⟩ := by
    simp only [contiguity_guard, if_pos hcond, hs, if_neg hse, hp, if_neg hne]
  refine ⟨?_, ?_, ?_⟩
  · rw [hguard]
    by_cases hb : carry.block_all_on_first_day.isEmpty
    · simp [hb, List.isEmpty_iff.mp hb]
    · simp [hb]
  · rw [hguard]
  · cases gen with
    | ok v => exact ⟨_, rfl, rfl, by rw [hguard]⟩
    | error e => exact ⟨_, rfl, rfl, by rw [hguard]⟩

/-- C1 witness: period `(2026, 2)` with an extracted record ending on
`2026-01-30` (not `2026-01-31`): the reported block of `Rossi` is cleared,
the warning is on, and the run proceeds. -/
theorem contiguity_guard_mismatch_witness :
    (contiguity_guard 2026 2 ⟨Option.some "2026-01-30", ["Rossi"], [], Option.none⟩).carry.block_all_on_first_day = []
    ∧ (contiguity_guard 2026 2 ⟨Option.some "2026-01-30", ["Rossi"], [], Option.none⟩).warned = true
    ∧ ∃ out, run_app 2026 2
        (Option.some (Except.ok ⟨Option.some "2026-01-30", ["Rossi"], [], Option.none⟩))
        [] "" (Except.ok (PyVal.dict [])) = Except.ok out
        ∧ out.generation_attempted = true ∧ out.contiguity_warned = true :=
  contiguity_guard_mismatch_clears_and_warns 2026 2
    ⟨Option.some "2026-01-30", ["Rossi"], [], Option.none⟩ "2026-01-30" ⟨2026, 1, 30⟩
    (Except.ok (PyVal.dict [])) (by decide) (by decide) rfl (by decide) (by decide)

/-- C5 — Guard skip: when the extracted record has no `last_date`, an empty
one, or an unparsable one, the contiguity guard leaves the record intact
and emits nothing (the exception path is swallowed, the run continues). -/
theorem contiguity_guard_skipped_on_missing_or_malformed
    (y : Int) (m : Nat) (carry : Carry)
    (h : carry.last_date = Option.none ∨ carry.last_date = Option.some "" ∨
      ∃ s, carry.last_date = Option.some s ∧ fromisoformat s = Option.none) :
    contiguity_guard y m carry = ⟨carry, false⟩ := by
  unfold contiguity_guard
  by_cases hc : 1 ≤ y ∧ y ≤ 9999 ∧ 1 ≤ m ∧ m ≤ 12
  · rcases h with h | h | ⟨s, hs, hp⟩
    · simp [hc, h]
    · simp [hc, h]
    · by_cases hse : s = ""
      · subst hse
        simp [hc, hs]
      · simp [hc, hs, hse, hp]
  · simp [hc]

/-- C5 witness: a record with an unparsable stored date keeps its block
list and produces no warning. -/
theorem contiguity_guard_skipped_witness :
    contiguity_guard 2026 2 ⟨Option.some "not-a-date", ["Rossi"], [], Option.none⟩ =
      ⟨⟨Option.some "not-a-date", ["Rossi"], [], Option.none⟩, false⟩ :=
  contiguity_guard_skipped_on_missing_or_malformed 2026 2
    ⟨Option.some "not-a-date", ["Rossi"], [], Option.none⟩
    (Or.inr (Or.inr ⟨"not-a-date", rfl, by decide⟩))

/-- C4 counterexample: in `streamlit_app_ui.py` an extraction-adapter
failure is caught — the error is shown, yet the run CONTINUES and the
manual carryover is still reconciled into the map handed to generation.
This refutes the claim that an adapter failure always aborts the run with
no partial reconciliation. -/
theorem ui_extraction_failure_run_continues :
    run_ui "2026-02" (Option.some (Except.error "boom")) ["Rossi"] =
      ⟨[("2026-02", ⟨["Rossi"], Option.none, Option.none⟩)], Option.some "boom", true⟩ := by
  decide

/-- C4 amended: an extraction-adapter failure is a hard error only in
`streamlit_app.py` — there it propagates uncaught (`Except.error`), so no
reconciliation, no generation and no audit event happen.  In
`streamlit_app_ui.py` the failure is caught: the error message is shown
and the run continues to the generation phase. -/
theorem extraction_failure_two_handlers (y : Int) (m : Nat) (e : String)
    (sel : List String) (text : String) (gen : Except String PyVal)
    (mk : String) (manual : List String) :
    run_app y m (Option.some (Except.error e)) sel text gen = Except.error e
    ∧ (run_ui mk (Option.some (Except.error e)) manual).extract_error_shown = Option.some e
    ∧ (run_ui mk (Option.some (Except.error e)) manual).generation_attempted = true :=
  ⟨rfl, rfl, rfl⟩

/-- C10 — the per-row normalization step of the save handler always raises
`AttributeError`: `normalize_fascia` returns a tuple and the code calls
`.strip()` on it.  The claim that the save path evaluates this step
without raising and obtains a string is refuted for every input. -/
theorem save_row_strip_raises (sh_raw : Option String) :
    save_row_shift sh_raw = Except.error "AttributeError" := rfl

/-- C9 — `normalize_fascia` is idempotent on the five canonical values, and
the second pass reports `changed = false` and `unknown = false`. -/
theorem normalize_fascia_idempotent_on_canonical (x : String)
    (hx : x ∈ FASCIA_OPTIONS) :
    normalize_fascia (Option.some ((normalize_fascia (Option.some x)).canonicalValue)) =
      normalize_fascia (Option.some x)
    ∧ (normalize_fascia (Option.some ((normalize_fascia (Option.some x)).canonicalValue))).changed = false
    ∧ (normalize_fascia (Option.some ((normalize_fascia (Option.some x)).canonicalValue))).unknown = false := by
  fin_cases hx <;> exact ⟨by decide, by decide, by decide⟩

/-- C9 witness at the canonical value `Mattina`. -/
theorem normalize_fascia_idempotent_witness :
    normalize_fascia (Option.some ((normalize_fascia (Option.some "Mattina")).canonicalValue)) =
      normalize_fascia (Option.some "Mattina")
    ∧ (normalize_fascia (Option.some ((normalize_fascia (Option.some "Mattina")).canonicalValue))).changed = false
    ∧ (normalize_fascia (Option.some ((normalize_fascia (Option.some "Mattina")).canonicalValue))).unknown = false :=
  normalize_fascia_idempotent_on_canonical "Mattina" (by decide)

/-- C3 counterexample: `_summarize_stats` does raise on a mapping whose
`months` entry is a truthy non-mapping (`months.items()` has no meaning on
a string), refuting the claim of totality for mappings with a `months`
field of arbitrary shape. -/
theorem summarize_stats_raises_on_nondict_months :
    summarize_stats (PyVal.dict [("months", PyVal.str "boom")]) =
      Except.error "AttributeError" := rfl

/-- C3 amended: `_summarize_stats` returns without raising exactly when the
input is not a mapping whose `months` entry is truthy and non-mapping; in
particular `summarize(None)` and `summarize("not a map")` both return
`.ok` with `status = "UNKNOWN"`. -/
theorem summarize_stats_totality (stats : PyVal) :
    isOkE (summarize_stats stats) = !(months_ill_formed stats)
    ∧ summarize_stats PyVal.none = Except.ok (PyVal.dict [("status", PyVal.str "UNKNOWN")])
    ∧ summarize_stats (PyVal.str "not a map") =
        Except.ok (PyVal.dict [("status", PyVal.str "UNKNOWN")]) := by
  refine ⟨?_, rfl, rfl⟩
  cases stats with
  | dict kvs =>
    simp only [summarize_stats, months_ill_formed]
    rcases hm : pyGetD kvs "months" PyVal.none with _ | b | n | s | xs | xs | mkvs
    · simp [truthy, isOkE, isDict]
    · cases b <;> simp [truthy, isOkE, isDict]
    · by_cases hn : n = 0 <;> simp [truthy, isOkE, isDict, hn]
    · by_cases hs : s = "" <;> simp [truthy, isOkE, isDict, hs]
    · cases xs <;> simp [truthy, isOkE, isDict]
    · cases xs <;> simp [truthy, isOkE, isDict]
    · cases mkvs <;> simp [truthy, isOkE, isDict]
  | none => rfl
  | bool b => rfl
  | int n => rfl
  | str s => rfl
  | list xs => rfl
  | tuple xs => rfl

/-- C6 counterexample: a month record with `solver_error = ""` (non-null
but falsy).  The code stores `solver_error: None` (not `""` truncated) and
does NOT place the period in `greedy_months`, refuting classification by
non-nullness. -/
theorem summarize_stats_empty_solver_error_not_greedy :
    summarize_stats (PyVal.dict [("status", PyVal.str "OK"),
        ("months", PyVal.dict [("2026-02", PyVal.dict [("status", PyVal.str "OK"),
          ("solver_error", PyVal.str "")])])]) =
      Except.ok (PyVal.dict
        [("status", PyVal.str "OK"),
         ("greedy_months", PyVal.list []),
         ("infeasible_months", PyVal.list []),
         ("months", PyVal.dict [("2026-02", PyVal.dict
           [("status", PyVal.str "OK"), ("solver_error", PyVal.none),
            ("autorelax", PyVal.none)])])])
    ∧ PyVal.str "" ≠ PyVal.none :=
  ⟨rfl, fun h => PyVal.noConfusion h⟩

/-- Helper: stripping commutes with filtering on the stripped value
(the list comprehensions of lines 426 and 428 map and test the same
expression). -/
theorem strip_filter_map (l : List String) :
    (l.filter (fun x => decide (pyStrip x ≠ ""))).map pyStrip =
      (l.map pyStrip).filter (fun x => decide (x ≠ "")) := by
  induction l with
  | nil => rfl
  | cons x xs ih =>
    by_cases h : pyStrip x = ""
    · have h1 : ¬ ((fun y => decide (pyStrip y ≠ "")) x = true) := by simp [h]
      have h2 : ¬ ((fun y => decide (y ≠ "")) (pyStrip x) = true) := by simp [h]
      rw [List.map_cons,
        List.filter_cons_of_neg (p := fun y => decide (pyStrip y ≠ "")) (a := x) h1,
        List.filter_cons_of_neg (p := fun y => decide (y ≠ "")) (a := pyStrip x) h2, ih]
    · have h1 : (fun y => decide (pyStrip y ≠ "")) x = true := by simp [h]
      have h2 : (fun y => decide (y ≠ "")) (pyStrip x) = true := by simp [h]
      rw [List.map_cons,
        List.filter_cons_of_pos (p := fun y => decide (pyStrip y ≠ "")) (a := x) h1,
        List.filter_cons_of_pos (p := fun y => decide (y ≠ "")) (a := pyStrip x) h2,
        List.map_cons, ih]

/-- Helper: the append-if-absent loop appends exactly the names not already
present, first occurrences first, after the existing entries. -/
theorem merge_manual_eq (manual cur : List String) :
    merge_manual cur manual =
      cur ++ dedupFirstSeen (manual.filter (fun n => decide (n ∉ cur))) := by
  induction manual generalizing cur with
  | nil => simp [merge_manual, dedupFirstSeen]
  | cons n ms ih =>
    show merge_manual (if n ∈ cur then cur else cur ++ [n]) ms = _
    by_cases h : n ∈ cur
    · rw [if_pos h, ih]
      have hf : (n :: ms).filter (fun x => decide (x ∉ cur)) =
          ms.filter (fun x => decide (x ∉ cur)) := by simp [h]
      rw [hf]
    · rw [if_neg h, ih]
      have hcons : (n :: ms).filter (fun x => decide (x ∉ cur)) =
          n :: ms.filter (fun x => decide (x ∉ cur)) := by simp [h]
      have hfilter : ms.filter (fun x => decide (x ∉ cur ++ [n])) =
          (ms.filter (fun x => decide (x ∉ cur))).filter (fun y => decide (y ≠ n)) := by
        rw [List.filter_filter]
        apply List.filter_congr
        intro x _
        by_cases h1 : x ∈ cur <;> by_cases h2 : x = n <;> simp [h1, h2]
      rw [hcons, hfilter]
      conv_rhs => rw [dedupFirstSeen]
      simp [List.append_assoc]

/-- Helper: the seen-set loop of line 431 equals first-seen
de-duplication. -/
theorem dedupSeen_eq (l : List String) : dedupSeen l = dedupFirstSeen l := by
  have h : dedupSeen l = merge_manual [] l := rfl
  have hp : l.filter (fun n => decide (n ∉ ([] : List String))) = l := by
    apply List.filter_eq_self.mpr
    intro a _
    simp
  rw [h, merge_manual_eq, hp, List.nil_append]

/-- Helper: first-seen de-duplication only returns elements of its input. -/
theorem mem_of_mem_dedupFirstSeen (l : List String) (a : String)
    (h : a ∈ dedupFirstSeen l) : a ∈ l := by
  induction l using dedupFirstSeen.induct with
  | case1 => simp [dedupFirstSeen] at h
  | case2 x xs ih =>
    rw [dedupFirstSeen] at h
    rcases List.mem_cons.mp h with rfl | h'
    · exact List.mem_cons_self _ _
    · exact List.mem_cons_of_mem _ (List.mem_of_mem_filter (ih h'))

/-- Helper: first-seen de-duplication returns a duplicate-free list. -/
theorem nodup_dedupFirstSeen (l : List String) : (dedupFirstSeen l).Nodup := by
  induction l using dedupFirstSeen.induct with
  | case1 => simp [dedupFirstSeen]
  | case2 x xs ih =>
    rw [dedupFirstSeen]
    refine List.nodup_cons.mpr ⟨?_, ih⟩
    intro hx
    have h1 := mem_of_mem_dedupFirstSeen _ _ hx
    have h2 := List.of_mem_filter h1
    simp at h2

/-- C2 — Manual name collection and merge: the collected manual names are
exactly the concatenated multiselect and comma-split free-text names,
trimmed, with empties dropped, de-duplicated preserving first-seen order
(and hence duplicate-free); the merge into an existing record keeps the
existing order and appends only the names not already present, in
first-seen order — in particular merging `["A","B","A"]` into `["B","C"]`
yields `["B","C","A"]`. -/
theorem manual_names_collect_and_merge (sel : List String) (text : String)
    (cur manual : List String) :
    collect_manual_names sel text = collect_manual_names_spec sel text
    ∧ (collect_manual_names sel text).Nodup
    ∧ merge_manual cur manual =
        cur ++ dedupFirstSeen (manual.filter (fun n => decide (n ∉ cur)))
    ∧ merge_manual ["B", "C"] ["A", "B", "A"] = ["B", "C", "A"] := by
  refine ⟨?_, ?_, merge_manual_eq manual cur, by decide⟩
  · unfold collect_manual_names collect_manual_names_spec
    rw [dedupSeen_eq, strip_filter_map, strip_filter_map,
      ← List.filter_append, ← List.map_append]
  · unfold collect_manual_names
    rw [dedupSeen_eq]
    exact nodup_dedupFirstSeen _

/-- Helper: the summarizer loop keeps the month keys, in order. -/
theorem summarize_months_keys (mkvs : List (String × PyVal)) :
    (summarize_months mkvs).month_summary.map Prod.fst = mkvs.map Prod.fst := by
  induction mkvs with
  | nil => rfl
  | cons kv rest ih =>
    obtain ⟨k, v⟩ := kv
    simp [summarize_months, ih]

/-- Helper: `greedy_months` only contains month keys. -/
theorem greedy_months_subset (mkvs : List (String × PyVal)) (a : String)
    (h : a ∈ (summarize_months mkvs).greedy_months) : a ∈ mkvs.map Prod.fst := by
  induction mkvs with
  | nil => simp [summarize_months] at h
  | cons kv rest ih =>
    obtain ⟨k, v⟩ := kv
    simp only [summarize_months] at h
    by_cases hc : (month_step v).2.1 = true
    · rw [if_pos hc] at h
      rcases List.mem_cons.mp h with rfl | h'
      · simp
      · simp [ih h']
    · rw [if_neg hc] at h
      simp [ih h]

/-- Helper: `infeasible_months` only contains month keys. -/
theorem infeasible_months_subset (mkvs : List (String × PyVal)) (a : String)
    (h : a ∈ (summarize_months mkvs).infeasible_months) : a ∈ mkvs.map Prod.fst := by
  induction mkvs with
  | nil => simp [summarize_months] at h
  | cons kv rest ih =>
    obtain ⟨k, v⟩ := kv
    simp only [summarize_months] at h
    by_cases hc : (month_step v).2.2 = true
    · rw [if_pos hc] at h
      rcases List.mem_cons.mp h with rfl | h'
      · simp
      · simp [ih h']
    · rw [if_neg hc] at h
      simp [ih h]

/-- Helper: for a month key `k` bound to `v` (keys pairwise distinct), the
summarizer stores `month_step v` for `k` and classifies `k` according to
the two flags of `month_step v`. -/
theorem summarize_months_lookup (mkvs : List (String × PyVal)) (k : String) (v : PyVal)
    (hmem : (k, v) ∈ mkvs) (hnd : (mkvs.map Prod.fst).Nodup) :
    (summarize_months mkvs).month_summary.lookup k = Option.some (month_step v).1
    ∧ (k ∈ (summarize_months mkvs).greedy_months ↔ (month_step v).2.1 = true)
    ∧ (k ∈ (summarize_months mkvs).infeasible_months ↔ (month_step v).2.2 = true) := by
  induction mkvs with
  | nil => simp at hmem
  | cons kv rest ih =>
    obtain ⟨k0, v0⟩ := kv
    have hnd1 := hnd
    simp only [List.map_cons] at hnd1
    have hnd0 := List.nodup_cons.mp hnd1
    rcases List.mem_cons.mp hmem with heq | hmem'
    · injection heq with hk hv
      subst hk
      subst hv
      have hg : k ∉ (summarize_months rest).greedy_months :=
        fun hx => hnd0.1 (greedy_months_subset rest k hx)
      have hi : k ∉ (summarize_months rest).infeasible_months :=
        fun hx => hnd0.1 (infeasible_months_subset rest k hx)
      refine ⟨by simp [summarize_months, List.lookup], ?_, ?_⟩
      · by_cases hc : (month_step v).2.1 = true
        · simp [summarize_months, hc]
        · simp [summarize_months, hc, hg]
      · by_cases hc : (month_step v).2.2 = true
        · simp [summarize_months, hc]
        · simp [summarize_months, hc, hi]
    · have hkrest : k ∈ rest.map Prod.fst := List.mem_map_of_mem Prod.fst hmem'
      have hkk0 : k ≠ k0 := fun h => hnd0.1 (h ▸ hkrest)
      obtain ⟨ih1, ih2, ih3⟩ := ih hmem' hnd0.2
      have hbeq : (k == k0) = false := by simp [hkk0]
      refine ⟨?_, ?_, ?_⟩
      · simp [summarize_months, List.lookup, hbeq, ih1]
      · by_cases hc : (month_step v0).2.1 = true
        · simp [summarize_months, hc, hkk0, ih2]
        · simp [summarize_months, hc, ih2]
      · by_cases hc : (month_step v0).2.2 = true
        · simp [summarize_months, hc, hkk0, ih3]
        · simp [summarize_months, hc, ih3]

/-- C6 (amended) — for every month key of a well-formed stats mapping
bound to a structured record, the stored `solver_error` is the input
truncated to 400 characters when truthy and `None` otherwise, the key is
in `greedy_months` exactly when `solver_error` is truthy, and in
`infeasible_months` exactly when the uppercased status contains
`"INFEAS"`; a non-record month value is stored as its string form, in
neither list. -/
theorem summarize_months_classification (mkvs : List (String × PyVal))
    (k : String) (v : PyVal)
    (hmem : (k, v) ∈ mkvs) (hnd : (mkvs.map Prod.fst).Nodup) :
    (∀ vkvs, v = PyVal.dict vkvs →
      ((summarize_months mkvs).month_summary.lookup k =
          Option.some (PyVal.dict
            [("status", pyGetD vkvs "status" PyVal.none),
             ("solver_error",
               if truthy (pyGetD vkvs "solver_error" PyVal.none) then
                 PyVal.str (take400 (pyStr (pyGetD vkvs "solver_error" PyVal.none)))
               else PyVal.none),
             ("autorelax", pyGetD vkvs "autorelax" PyVal.none)])
        ∧ (k ∈ (summarize_months mkvs).greedy_months ↔
            truthy (pyGetD vkvs "solver_error" PyVal.none) = true)
        ∧ (k ∈ (summarize_months mkvs).infeasible_months ↔
            containsSub (month_status_upper vkvs) "INFEAS" = true)))
    ∧ (isDict v = false →
        (summarize_months mkvs).month_summary.lookup k =
          Option.some (PyVal.dict [("status", PyVal.str (pyStr v))])
        ∧ k ∉ (summarize_months mkvs).greedy_months
        ∧ k ∉ (summarize_months mkvs).infeasible_months) := by
  obtain ⟨h1, h2, h3⟩ := summarize_months_lookup mkvs k v hmem hnd
  constructor
  · intro vkvs hv
    subst hv
    exact ⟨by simpa [month_step, month_entry] using h1,
      by simpa [month_step] using h2,
      by simpa [month_step] using h3⟩
  · intro hnd2
    have hms : month_step v = (PyVal.dict [("status", PyVal.str (pyStr v))], false, false) := by
      cases v <;> simp [month_step, isDict] at hnd2 ⊢
    refine ⟨by rw [h1, hms], ?_, ?_⟩
    · simp [h2, hms]
    · simp [h3, hms]

set_option maxRecDepth 10000 in
/-- C6 witness: the spec example — status `INFEASIBLE` with a
1000-character solver error is classified both greedy and infeasible, and
the stored error is truncated to 400 characters. -/
theorem summarize_months_classification_witness :
    (summarize_months [("2026-02", PyVal.dict
        [("status", PyVal.str "INFEASIBLE"),
         ("solver_error", PyVal.str (String.mk (List.replicate 1000 'x')))])]).month_summary.lookup "2026-02" =
      Option.some (PyVal.dict
        [("status", PyVal.str "INFEASIBLE"),
         ("solver_error", PyVal.str (String.mk (List.replicate 400 'x'))),
         ("autorelax", PyVal.none)])
    ∧ "2026-02" ∈ (summarize_months [("2026-02", PyVal.dict
        [("status", PyVal.str "INFEASIBLE"),
         ("solver_error", PyVal.str (String.mk (List.replicate 1000 'x')))])]).greedy_months
    ∧ "2026-02" ∈ (summarize_months [("2026-02", PyVal.dict
        [("status", PyVal.str "INFEASIBLE"),
         ("solver_error", PyVal.str (String.mk (List.replicate 1000 'x')))])]).infeasible_months := by
  have h := summarize_months_classification
    [("2026-02", PyVal.dict
        [("status", PyVal.str "INFEASIBLE"),
         ("solver_error", PyVal.str (String.mk (List.replicate 1000 'x')))])]
    "2026-02"
    (PyVal.dict [("status", PyVal.str "INFEASIBLE"),
      ("solver_error", PyVal.str (String.mk (List.replicate 1000 'x')))])
    (List.mem_singleton.mpr rfl) (by simp)
  obtain ⟨h1, h2, h3⟩ := h.1 _ rfl
  refine ⟨?_, h2.mpr (by decide), h3.mpr (by decide)⟩
  rw [h1]
  rfl

/-- Helper: the empty key never matches any rule of the normalizer. -/
theorem fasciaKey_empty : fasciaKey "" = "" := rfl

/-- Helper: a hit in the `direct` table pins the key to one of its eight
entries. -/
theorem directLookup_cases (k : String) (c : String)
    (h : directLookup k = Option.some c) :
    k = "mattina" ∨ k = "pomeriggio" ∨ k = "notte" ∨ k = "diurno" ∨
    k = "tutto il giorno" ∨ k = "tutto giorno" ∨ k = "all day" ∨
    k = "giornata intera" := by
  unfold directLookup at h
  split_ifs at h with h1 h2 h3 h4 h5 h6 h7 h8
  · exact Or.inl h1
  · exact Or.inr (Or.inl h2)
  · exact Or.inr (Or.inr (Or.inl h3))
  · exact Or.inr (Or.inr (Or.inr (Or.inl h4)))
  · exact Or.inr (Or.inr (Or.inr (Or.inr (Or.inl h5))))
  · exact Or.inr (Or.inr (Or.inr (Or.inr (Or.inr (Or.inl h6)))))
  · exact Or.inr (Or.inr (Or.inr (Or.inr (Or.inr (Or.inr (Or.inl h7))))))
  · exact Or.inr (Or.inr (Or.inr (Or.inr (Or.inr (Or.inr (Or.inr h8))))))

/-- C7 — Normalizer fail-safe: when neither the exact-match table nor any
fuzzy rule fires on a non-blank input, the result is
`("Tutto il giorno", changed := true, unknown := true)`; and on every
input, `unknown = true` implies `changed = true`. -/
theorem normalize_fascia_failsafe (v : String) (w : Option String)
    (h1 : pyStrip v ≠ "")
    (h2 : fasciaNoMatch (fasciaKey (pyStrip v)) = true) :
    normalize_fascia (Option.some v) = ⟨"Tutto il giorno", true, true⟩
    ∧ ((normalize_fascia w).unknown = true → (normalize_fascia w).changed = true) := by
  constructor
  · have h2' := h2
    unfold fasciaNoMatch at h2'
    simp only [Bool.and_eq_true, Bool.not_eq_true', Option.isNone_iff_eq_none] at h2'
    obtain ⟨⟨⟨⟨⟨hd, hf⟩, hdt⟩, hmo⟩, ha⟩, hn⟩ := h2'
    simp [normalize_fascia, h1, hd, hf, hdt, hmo, ha, hn]
  · intro hu
    cases w with
    | none => simp [normalize_fascia] at hu
    | some u =>
      by_cases he : pyStrip u = ""
      · simp [normalize_fascia, he] at hu
      · rcases hd : directLookup (fasciaKey (pyStrip u)) with _ | c
        · by_cases c1 : fullDayFrag (fasciaKey (pyStrip u)) = true
          · simp [normalize_fascia, he, hd, c1] at hu
          · by_cases c2 : daytimeFrag (fasciaKey (pyStrip u)) = true
            · simp [normalize_fascia, he, hd, c1, c2] at hu
            · by_cases c3 : morningFrag (fasciaKey (pyStrip u)) = true
              · simp [normalize_fascia, he, hd, c1, c2, c3] at hu
              · by_cases c4 : afternoonFrag (fasciaKey (pyStrip u)) = true
                · simp [normalize_fascia, he, hd, c1, c2, c3, c4] at hu
                · by_cases c5 : nightFrag (fasciaKey (pyStrip u)) = true
                  · simp [normalize_fascia, he, hd, c1, c2, c3, c4, c5] at hu
                  · simp [normalize_fascia, he, hd, c1, c2, c3, c4, c5]
        · simp [normalize_fascia, he, hd] at hu

/-- C7 witness at the spec example `"xyz-unrecognized"`. -/
theorem normalize_fascia_failsafe_witness :
    normalize_fascia (Option.some "xyz-unrecognized") = ⟨"Tutto il giorno", true, true⟩
    ∧ ((normalize_fascia (Option.some "xyz-unrecognized")).unknown = true →
        (normalize_fascia (Option.some "xyz-unrecognized")).changed = true) :=
  normalize_fascia_failsafe "xyz-unrecognized" (Option.some "xyz-unrecognized")
    (by decide) (by decide)

/-- C8 — Fuzzy rule order: a FullDay fragment beats a fragment of any other
category (the result is FullDay, `changed = true`, `unknown = false`), and
a Daytime fragment beats the three discrete-shift fragments (the result is
Diurno) when no FullDay fragment is present. -/
theorem normalize_fascia_rule_order (v : String) :
    (fullDayFrag (fasciaKey (pyStrip v)) = true →
      (daytimeFrag (fasciaKey (pyStrip v)) || morningFrag (fasciaKey (pyStrip v)) ||
        afternoonFrag (fasciaKey (pyStrip v)) || nightFrag (fasciaKey (pyStrip v))) = true →
      normalize_fascia (Option.some v) = ⟨"Tutto il giorno", true, false⟩)
    ∧ (daytimeFrag (fasciaKey (pyStrip v)) = true →
      (morningFrag (fasciaKey (pyStrip v)) || afternoonFrag (fasciaKey (pyStrip v)) ||
        nightFrag (fasciaKey (pyStrip v))) = true →
      fullDayFrag (fasciaKey (pyStrip v)) = false →
      normalize_fascia (Option.some v) = ⟨"Diurno", true, false⟩) := by
  constructor
  · intro h1 h2
    by_cases he : pyStrip v = ""
    · rw [he, fasciaKey_empty] at h1
      exact absurd h1 (by decide)
    · rcases hd : directLookup (fasciaKey (pyStrip v)) with _ | c
      · simp [normalize_fascia, he, hd, h1]
      · exfalso
        rcases directLookup_cases _ _ hd with hk | hk | hk | hk | hk | hk | hk | hk <;>
          rw [hk] at h1 h2 <;> revert h1 h2 <;> decide
  · intro h1 h2 h3
    by_cases he : pyStrip v = ""
    · rw [he, fasciaKey_empty] at h1
      exact absurd h1 (by decide)
    · rcases hd : directLookup (fasciaKey (pyStrip v)) with _ | c
      · simp [normalize_fascia, he, hd, h1, h3]
      · exfalso
        rcases directLookup_cases _ _ hd with hk | hk | hk | hk | hk | hk | hk | hk <;>
          rw [hk] at h1 h2 <;> revert h1 h2 <;> decide

/-- C8 witness: `"tutto pomeriggio"` (FullDay + Afternoon fragments) maps
to FullDay; `"diurno matt"` (Daytime + Morning fragments, no FullDay
fragment) maps to Diurno. -/
theorem normalize_fascia_rule_order_witness :
    normalize_fascia (Option.some "tutto pomeriggio") = ⟨"Tutto il giorno", true, false⟩
    ∧ normalize_fascia (Option.some "diurno matt") = ⟨"Diurno", true, false⟩ :=
  ⟨(normalize_fascia_rule_order "tutto pomeriggio").1 (by decide) (by decide),
   (normalize_fascia_rule_order "diurno matt").2 (by decide) (by decide) (by decide)⟩

end Turni
